import Mathlib

/-!
Verification of the device-tool adapter layer of httprunner:
the image content sniffer (`DetectAndRenameImageFile`) and the
`push_image` / `clear_image` / `list_available_devices` tool handlers
from `uixt/mcp_tools_device.go`.

File contents are modelled as lists of bytes (`Nat`), the local file
system as an association list from path to contents, and the external
collaborators (device driver façade, HTTP download) as boolean-valued
environments recording whether each external call succeeds.
-/

set_option autoImplicit false

namespace HttpRunner

/-! ## Generic association lists (Go `map[string]V` and the file system) -/

/-- Lookup in an association list, first binding wins (Go map read). -/
def assocLookup {α : Type} (m : List (String × α)) (k : String) : Option α :=
  match m with
  | [] => none
  | (k2, v) :: rest => if k2 = k then some v else assocLookup rest k

/-- Insert-or-replace in an association list (Go map write). -/
def assocSet {α : Type} (m : List (String × α)) (k : String) (v : α) :
    List (String × α) :=
  match m with
  | [] => [(k, v)]
  | (k2, v2) :: rest =>
    if k2 = k then (k, v) :: rest else (k2, v2) :: assocSet rest k v

/-- Remove a key from an association list. -/
def assocErase {α : Type} (m : List (String × α)) (k : String) :
    List (String × α) :=
  m.filter (fun kv => kv.1 != k)

/-! ## Substring matching (Go `strings.Contains`) -/

/-- Does the list `l` start with the pattern `pat`? -/
def startsWith {α : Type} [DecidableEq α] : List α → List α → Bool
  | [], _ => true
  | _ :: _, [] => false
  | p :: ps, d :: ds => p = d && startsWith ps ds

/-- Does the pattern `pat` occur (contiguously) anywhere in `l`? -/
def occursIn {α : Type} [DecidableEq α] (pat : List α) : List α → Bool
  | [] => startsWith pat []
  | a :: rest => startsWith pat (a :: rest) || occursIn pat rest

/-- Go `strings.Contains s sub`. -/
def strContains (s sub : String) : Bool :=
  occursIn sub.toList s.toList

/-! ## Go `path/filepath` (slash-separated paths), as used by the sniffer -/

/-- Split a character list on the path separator. -/
def splitSlash : List Char → List (List Char)
  | [] => [[]]
  | c :: rest =>
    if c = '/' then [] :: splitSlash rest
    else match splitSlash rest with
      | [] => [[c]]
      | comp :: comps => (c :: comp) :: comps

/-- Stack-based resolution of `.` and `..` components, as in Go
`filepath.Clean`.  `acc` is the reversed stack of kept components. -/
def cleanComps (rooted : Bool) (acc : List (List Char)) :
    List (List Char) → List (List Char)
  | [] => acc.reverse
  | comp :: rest =>
    if comp = [] ∨ comp = ['.'] then cleanComps rooted acc rest
    else if comp = ['.', '.'] then
      match acc with
      | [] => if rooted then cleanComps rooted [] rest
              else cleanComps rooted [comp] rest
      | top :: acc2 =>
        if top = ['.', '.'] then cleanComps rooted (comp :: top :: acc2) rest
        else cleanComps rooted acc2 rest
    else cleanComps rooted (comp :: acc) rest

/-- Model of Go `path/filepath.Clean` for slash-separated (Unix) paths:
shortest lexically equivalent path. -/
def pathClean (p : String) : String :=
  if p = "" then "." else
  let cs := p.toList
  let rooted := cs.head? = some '/'
  let comps := cleanComps rooted [] (splitSlash cs)
  let joined := String.mk (List.intercalate ['/'] comps)
  if rooted then String.mk ('/' :: (List.intercalate ['/'] comps))
  else if comps = [] then "." else joined

/-- Model of Go `path/filepath.Base`: last element of the path after
dropping trailing separators; `"."` for the empty path, `"/"` when the
path is all separators. -/
def pathBase (p : String) : String :=
  if p = "" then "." else
  let cs := (p.toList.reverse.dropWhile (fun c => c = '/')).reverse
  if cs = [] then "/"
  else String.mk ((cs.reverse.takeWhile (fun c => ¬ c = '/')).reverse)

/-- Model of Go `path/filepath.Dir`: the path up to (and including) the
final separator, cleaned; `"."` when there is no separator. -/
def pathDir (p : String) : String :=
  pathClean (String.mk ((p.toList.reverse.dropWhile (fun c => ¬ c = '/')).reverse))

/-- Model of Go `path/filepath.Join` on two elements: concatenate the
non-empty elements with a separator and clean the result. -/
def pathJoin (a b : String) : String :=
  if a = "" then (if b = "" then "" else pathClean b)
  else pathClean (a ++ "/" ++ b)

/-! ## Content sniffing: model of Go `net/http.DetectContentType`

`DetectContentType` (external standard library, algorithm of the WHATWG
MIME-sniffing standard) is modelled restricted to the signatures that
can yield an `image/*` content type, with the `application/octet-stream`
fallback; the omitted signatures (HTML, XML, PDF, text, audio/video,
fonts, archives) never produce an `image/*` value and none of them
matches the byte buffers used in the theorems below. -/

def icoSig : List Nat := [0x00, 0x00, 0x01, 0x00]

def curSig : List Nat := [0x00, 0x00, 0x02, 0x00]

def bmpSig : List Nat := [0x42, 0x4D]

def gif87Sig : List Nat := [0x47, 0x49, 0x46, 0x38, 0x37, 0x61]

def gif89Sig : List Nat := [0x47, 0x49, 0x46, 0x38, 0x39, 0x61]

def webpMask : List Nat :=
  [0xFF, 0xFF, 0xFF, 0xFF, 0x00, 0x00, 0x00, 0x00, 0xFF, 0xFF, 0xFF, 0xFF, 0xFF, 0xFF]

def webpPat : List Nat :=
  [0x52, 0x49, 0x46, 0x46, 0x00, 0x00, 0x00, 0x00, 0x57, 0x45, 0x42, 0x50, 0x56, 0x50]

def pngSig : List Nat := [0x89, 0x50, 0x4E, 0x47, 0x0D, 0x0A, 0x1A, 0x0A]

def jpegSig : List Nat := [0xFF, 0xD8, 0xFF]

/-- Masked signature match (Go `maskedSig.match` with `skipWS = false`):
every pattern byte must equal the corresponding data byte AND-ed with
the mask byte; fails when the data is shorter than the mask. -/
def maskedMatch : List Nat → List Nat → List Nat → Bool
  | [], [], _ => true
  | m :: ms, p :: ps, d :: ds => Nat.land d m = p && maskedMatch ms ps ds
  | _, _, _ => false

/-- Model of Go `net/http.DetectContentType` (see above): try each
image signature on at most the first 512 bytes, in the standard
library's order, falling back to `application/octet-stream`. -/
def goDetectContentType (data0 : List Nat) : String :=
  let data := data0.take 512
  if startsWith icoSig data then "image/x-icon"
  else if startsWith curSig data then "image/x-icon"
  else if startsWith bmpSig data then "image/bmp"
  else if startsWith gif87Sig data then "image/gif"
  else if startsWith gif89Sig data then "image/gif"
  else if maskedMatch webpMask webpPat data then "image/webp"
  else if startsWith pngSig data then "image/png"
  else if startsWith jpegSig data then "image/jpeg"
  else "application/octet-stream"

/-! ## The sniffer / renamer: `DetectAndRenameImageFile` -/

/-- A local file system: association list from path to file bytes. -/
abbrev FileSys := List (String × List Nat)

/-- Go `os.Rename old new`: move the contents of `old` to `new`
(overwriting `new`); modelled as always succeeding when `old` exists. -/
def fsRename (fs : FileSys) (old new : String) : FileSys :=
  match assocLookup fs old with
  | none => fs
  | some c => assocSet (assocErase fs old) new c

/-- Errors of Go `file.Read`: end-of-stream or another I/O error. -/
inductive ReadErr where
  | eof
  | other (msg : String)
deriving DecidableEq

/-- Error result of reading an existing file of contents `c` into a
512-byte buffer with Go `file.Read`: a fresh handle on an empty file
yields `io.EOF`; otherwise some bytes are read without error. -/
def goRead512Err (c : List Nat) : Option ReadErr :=
  if c.isEmpty then some ReadErr.eof else none

/-- The 512-byte detection buffer: the code allocates a zeroed 512-byte
buffer and ignores the read count, so the buffer holds the first
`min 512 c.length` file bytes followed by zero padding. -/
def detectBuffer (c : List Nat) : List Nat :=
  (c ++ List.replicate 512 0).take 512

/-- The extension chosen from the detected content type
(the `switch` of `DetectAndRenameImageFile`); `none` is the
"not a recognized image type" branch. -/
def sniffExtension (contentType : String) : Option String :=
  if strContains contentType "image/jpeg" then some ".jpg"
  else if strContains contentType "image/png" then some ".png"
  else if strContains contentType "image/gif" then some ".gif"
  else if strContains contentType "image/webp" then some ".webp"
  else if strContains contentType "image/bmp" then some ".bmp"
  else if strContains contentType "image/tiff" then some ".tiff"
  else if strContains contentType "image/svg+xml" then some ".svg"
  else if strContains contentType "image/" then some ".jpg"
  else none

/-- Result of `DetectAndRenameImageFile`: the returned path, the
returned error (`none` on success), and the file system afterwards. -/
structure DetectResult where
  path : String
  error : Option String
  fs : FileSys
deriving DecidableEq

/-- The part of `DetectAndRenameImageFile` after the successful read of
the detection buffer: classify, pick the extension, and rename
`dir/base+extension` when the new path differs. -/
def detectAfterRead (fs : FileSys) (filePath : String) (c : List Nat) : DetectResult :=
  let contentType := goDetectContentType (detectBuffer c)
  match sniffExtension contentType with
  | none =>
    { path := filePath
      error := some ("not a recognized image type: " ++ contentType)
      fs := fs }
  | some extension =>
    let dir := pathDir filePath
    let base := pathBase filePath
    let newFilePath := pathJoin dir (base ++ extension)
    if filePath = newFilePath then { path := filePath, error := none, fs := fs }
    else
      { path := newFilePath
        error := none
        fs := fsRename fs filePath newFilePath }

/-- `DetectAndRenameImageFile` of `uixt`: open the file, read up to 512
bytes (an error other than `io.EOF` aborts), detect the content type,
and rename the file with the matching image extension.  The seek back
to the start never fails on a regular file and is elided. -/
def DetectAndRenameImageFile (fs : FileSys) (filePath : String) : DetectResult :=
  match assocLookup fs filePath with
  | none =>
    { path := "", error := some "failed to open file for type detection", fs := fs }
  | some c =>
    match goRead512Err c with
    | some (ReadErr.other m) =>
      { path := ""
        error := some ("failed to read file for type detection: " ++ m)
        fs := fs }
    | _ => detectAfterRead fs filePath c


/-! ## Tool handlers: envelopes, events, environments -/

/-- Result of a tool handler: a Go hard error (`nil` result plus
error), an error envelope (`NewMCPErrorResponse`), or a success
envelope (`NewMCPSuccessResponse`) carrying the tool's payload. -/
inductive HandlerOutcome (α : Type) where
  | hardError (msg : String)
  | failure (msg : String)
  | success (msg : String) (data : α)
deriving DecidableEq

/-- External calls a `push_image` invocation can make, in order. -/
inductive Event where
  | setupDriver
  | download (url : String)
  | clearImages
  | pushImage (path : String)
  | removeFile (path : String)
deriving DecidableEq

/-- Façade calls in the sense of the device capability façade
(`SelectDevice` / driver resolution, `ClearImages`, `PushImage`);
the HTTP download and the local file removal are not façade calls. -/
def isFacadeCall : Event → Bool
  | Event.setupDriver => true
  | Event.clearImages => true
  | Event.pushImage _ => true
  | Event.download _ => false
  | Event.removeFile _ => false

/-- Outcomes of the external collaborators of one `push_image` call:
driver resolution, `DownloadFileByUrl` (the downloaded path on
success), `DetectAndRenameImageFile` on the downloaded file (the
renamed path when it returns no error), `ClearImages`, `PushImage`. -/
structure PushEnv where
  setupOk : Bool
  downloadResult : Option String
  renamed : Option String
  clearOk : Bool
  pushOk : Bool

/-- Arguments of one `push_image` invocation: `some v` when the key is
present with a string value `v` (`none` both when the key is absent and
when its value has a non-string type, which Go's type assertion treats
alike); boolean flags default to `false` the same way. -/
structure PushArgs where
  imagePath : Option String
  imageUrl : Option String
  cleanup : Bool
  clearBefore : Bool

/-- Return payload of `push_image` (struct `ToolPushImage`). -/
structure ToolPushImage where
  imagePath : String
  imageUrl : String
  cleared : Bool
deriving DecidableEq

/-- Tail of the `push_image` handler after the image path is settled:
optional pre-clear, push, cleanup of a downloaded file, response. -/
def pushImageCore (env : PushEnv) (args : PushArgs) (downloadedFile : Bool)
    (imagePath : String) (imageUrl : String) (urlUsed : Bool) (ev : List Event) :
    HandlerOutcome ToolPushImage × List Event :=
  let cleared := if args.clearBefore then env.clearOk else false
  let ev := if args.clearBefore then ev ++ [Event.clearImages] else ev
  let ev := ev ++ [Event.pushImage imagePath]
  if env.pushOk = false then
    let ev := if downloadedFile && args.cleanup then ev ++ [Event.removeFile imagePath] else ev
    (HandlerOutcome.hardError "failed to push image", ev)
  else
    let ev := if downloadedFile && args.cleanup then ev ++ [Event.removeFile imagePath] else ev
    let msg1 :=
      if urlUsed then
        "Successfully downloaded and pushed image from " ++ imageUrl ++ " to device"
      else "Successfully pushed image to device"
    let msg := if cleared then msg1 ++ " (images cleared before pushing)" else msg1
    (HandlerOutcome.success msg
      { imagePath := imagePath
        imageUrl := if urlUsed then imageUrl else ""
        cleared := cleared }, ev)

/-- The `push_image` handler (`ToolPushImage.Implement`): resolve the
driver, require one of `imagePath` / `imageUrl`, download and rename
when a URL is given, optionally pre-clear, push, optionally clean up. -/
def ToolPushImage.Implement (env : PushEnv) (args : PushArgs) :
    HandlerOutcome ToolPushImage × List Event :=
  let ev := [Event.setupDriver]
  if env.setupOk = false then (HandlerOutcome.hardError "failed to setup driver", ev)
  else
    let imagePath := args.imagePath.getD ""
    let hasPath := args.imagePath.isSome
    let imageUrl := args.imageUrl.getD ""
    let hasUrl := args.imageUrl.isSome
    if (!hasPath || imagePath == "") && (!hasUrl || imageUrl == "") then
      (HandlerOutcome.hardError "either imagePath or imageUrl is required", ev)
    else
      if hasUrl && imageUrl != "" then
        let ev := ev ++ [Event.download imageUrl]
        match env.downloadResult with
        | none => (HandlerOutcome.hardError "failed to download image from URL", ev)
        | some downloadedPath =>
          pushImageCore env args true (env.renamed.getD downloadedPath) imageUrl true ev
      else pushImageCore env args false imagePath imageUrl false ev

/-- Return payload of `clear_image` (struct `ToolClearImage`): the
success flag is its only field. -/
structure ToolClearImage where
  success : Bool
deriving DecidableEq

/-- Outcomes of the external calls of one `clear_image` invocation. -/
structure ClearEnv where
  setupOk : Bool
  clearOk : Bool

/-- The `clear_image` handler (`ToolClearImage.Implement`): resolve the
driver, call `ClearImages`, and wrap the result. -/
def ToolClearImage.Implement (env : ClearEnv) : HandlerOutcome ToolClearImage :=
  if env.setupOk = false then HandlerOutcome.hardError "failed to setup driver"
  else if env.clearOk = false then HandlerOutcome.hardError "failed to clear images"
  else
    HandlerOutcome.success "Successfully cleared images from device" { success := true }

/-- One iOS device seen during enumeration: its serial number, whether
driver construction (`NewIOSDevice`) succeeded, and whether pairing
(`ios.Pair`) succeeded; the device is silently skipped unless both do. -/
structure IosEnumDevice where
  serial : String
  newDeviceOk : Bool
  pairOk : Bool

/-- Outcomes of the external calls of one `list_available_devices`
invocation: `none` means the Android (resp. iOS) enumeration itself
failed, so its key is never written into the device map. -/
structure ListEnv where
  androidSerials : Option (List String)
  iosListResult : Option (List IosEnumDevice)

/-- Return payload of `list_available_devices`
(struct `ToolListAvailableDevices`). -/
structure ToolListAvailableDevices where
  androidDevices : List String
  iosDevices : List String
  totalCount : Nat
  androidCount : Nat
  iosCount : Nat
deriving DecidableEq

/-- The `list_available_devices` handler
(`ToolListAvailableDevices.Implement`): collect the serials that
enumerate successfully (missing map keys read as empty lists) and
always wrap the counts in a success envelope. -/
def ToolListAvailableDevices.Implement (env : ListEnv) :
    HandlerOutcome ToolListAvailableDevices :=
  let android := env.androidSerials.getD []
  let ios :=
    match env.iosListResult with
    | none => []
    | some ds => (ds.filter (fun d => d.newDeviceOk && d.pairOk)).map (fun d => d.serial)
  let total := android.length + ios.length
  let msg := "Found " ++ toString total ++ " available devices (" ++
    toString android.length ++ " Android, " ++ toString ios.length ++ " iOS)"
  HandlerOutcome.success msg
    { androidDevices := android
      iosDevices := ios
      totalCount := total
      androidCount := android.length
      iosCount := ios.length }

/-! ## Reverse mapping: `ToolPushImage.ConvertActionToCallToolRequest` -/

/-- A value inside an argument map or a parameter map: Go
`interface{}` restricted to the shapes the code's type assertions
test (`aOther` stands for every other dynamic type). -/
inductive ArgVal where
  | aStr (s : String)
  | aBool (b : Bool)
  | aOther
deriving DecidableEq

/-- `action.Params`: a bare string, a nested mapping, or anything
else. -/
inductive ParamsVal where
  | pStr (s : String)
  | pMap (m : List (String × ArgVal))
  | pOther

/-- The slice of `option.MobileAction` the reverse mapping reads:
its parameters and its custom option overrides. -/
structure MobileAction where
  params : ParamsVal
  custom : List (String × ArgVal)

/-- A tool invocation (`mcp.CallToolRequest`): tool name plus argument
map. -/
structure CallToolRequest where
  name : String
  arguments : List (String × ArgVal)

/-- One `if v, ok := src[k].(string); ok && v != ""` step: write the
field only when the source holds a non-empty string. -/
def applyStrField (args : List (String × ArgVal)) (k : String) (v : Option ArgVal) :
    List (String × ArgVal) :=
  match v with
  | some (ArgVal.aStr s) => if s = "" then args else assocSet args k (ArgVal.aStr s)
  | _ => args

/-- One `if v, ok := src[k].(bool); ok` step: write the field whenever
the source holds a boolean. -/
def applyBoolField (args : List (String × ArgVal)) (k : String) (v : Option ArgVal) :
    List (String × ArgVal) :=
  match v with
  | some (ArgVal.aBool b) => assocSet args k (ArgVal.aBool b)
  | _ => args

/-- `params` viewed through the `.(string)` type assertion. -/
def paramsAsStr : ParamsVal → Option ArgVal
  | ParamsVal.pStr s => some (ArgVal.aStr s)
  | _ => none

/-- `ToolPushImage.ConvertActionToCallToolRequest`: build the argument
map from a bare-string `imageUrl`, then the recognized keys of a
parameter mapping, then the custom overrides, later writes replacing
earlier ones. -/
def ToolPushImage.ConvertActionToCallToolRequest (action : MobileAction) :
    CallToolRequest :=
  let args0 : List (String × ArgVal) := []
  let args1 := applyStrField args0 "imageUrl" (paramsAsStr action.params)
  let args2 :=
    match action.params with
    | ParamsVal.pMap m =>
      applyBoolField
        (applyBoolField
          (applyStrField
            (applyStrField args1 "imageUrl" (assocLookup m "imageUrl"))
            "imagePath" (assocLookup m "imagePath"))
          "cleanup" (assocLookup m "cleanup"))
        "clearBefore" (assocLookup m "clearBefore")
    | _ => args1
  let args3 :=
    applyBoolField
      (applyBoolField
        (applyStrField
          (applyStrField args2 "imageUrl" (assocLookup action.custom "imageUrl"))
          "imagePath" (assocLookup action.custom "imagePath"))
        "cleanup" (assocLookup action.custom "cleanup"))
      "clearBefore" (assocLookup action.custom "clearBefore")
  { name := "push_image", arguments := args3 }

/-! ## Helper lemmas -/

theorem assocLookup_set_self {α : Type} (m : List (String × α)) (k : String) (v : α) :
    assocLookup (assocSet m k v) k = some v := by
  induction m with
  | nil => simp [assocSet, assocLookup]
  | cons kv rest ih =>
    by_cases h : kv.1 = k
    · simp [assocSet, assocLookup, h]
    · simp [assocSet, assocLookup, h, ih]

theorem assocLookup_set_other {α : Type} (m : List (String × α)) (k k2 : String) (v : α)
    (h : k2 ≠ k) : assocLookup (assocSet m k v) k2 = assocLookup m k2 :=
  by
  have h2 : ¬ k = k2 := fun hh => h hh.symm
  induction m with
  | nil => simp [assocSet, assocLookup, h2]
  | cons kv rest ih =>
    by_cases hk : kv.1 = k
    · simp [assocSet, assocLookup, hk, h2, hk ▸ h2]
    · by_cases hk2 : kv.1 = k2
      · simp [assocSet, assocLookup, hk, hk2, h]
      · simp [assocSet, assocLookup, hk, hk2, ih]


theorem startsWith_append_left {α : Type} [DecidableEq α] (x y l : List α)
    (h : startsWith (x ++ y) l = true) : startsWith x l = true := by
  induction x generalizing l with
  | nil => simp [startsWith]
  | cons a as ih =>
    cases l with
    | nil => simp [startsWith] at h
    | cons b bs =>
      simp only [List.cons_append, startsWith, Bool.and_eq_true] at h ⊢
      exact ⟨h.1, ih bs h.2⟩

theorem occursIn_append_left {α : Type} [DecidableEq α] (x y s : List α)
    (h : occursIn (x ++ y) s = true) : occursIn x s = true := by
  induction s with
  | nil =>
    simp only [occursIn] at h ⊢
    cases x with
    | nil => simp [startsWith]
    | cons a as => simp [startsWith] at h
  | cons b bs ih =>
    simp only [occursIn, Bool.or_eq_true] at h ⊢
    cases h with
    | inl h => exact Or.inl (startsWith_append_left x y _ h)
    | inr h => exact Or.inr (ih h)

/-- If `s` contains `sub1 ++ sub2` then it contains `sub1`. -/
theorem strContains_of_append (s sub1 sub2 : String)
    (h : strContains s (sub1 ++ sub2) = true) : strContains s sub1 = true := by
  have hl : (sub1 ++ sub2).toList = sub1.toList ++ sub2.toList := by
    simp [String.toList]
  rw [strContains, hl] at h
  exact occursIn_append_left _ _ _ h


/-- If `ct` does not contain `"image/"` it contains no `"image/"`-prefixed
substring either. -/
theorem strContains_image_sub_false (ct suf : String)
    (h : strContains ct "image/" = false) :
    strContains ct ("image/" ++ suf) = false := by
  cases hc : strContains ct ("image/" ++ suf)
  · rfl
  · exact absurd (strContains_of_append ct "image/" suf hc) (by simp [h])

theorem take_512_png (t : List Nat) :
    (pngSig ++ t).take 512 = pngSig ++ t.take 504 := by
  rw [List.take_append_eq_append_take]
  norm_num [pngSig]

/-- Any buffer starting with the 8-byte PNG signature sniffs as
`image/png`. -/
theorem goDetect_png_prefix (t : List Nat) :
    goDetectContentType (pngSig ++ t) = "image/png" := by
  simp only [goDetectContentType, take_512_png]
  have h1 : Nat.land 137 255 = 137 := by decide
  simp [pngSig, icoSig, curSig, bmpSig, gif87Sig, gif89Sig, webpMask, webpPat, jpegSig,
        startsWith, maskedMatch, h1]

/-! ## Claim theorems -/

/-- C1: the spec (and the code's own comment) says a file already
carrying the extension implied by its content is returned unchanged
with no rename.  The code instead always appends the extension to the
full base name, so the comparison `filePath == newFilePath` can never
hold: a PNG file already named `photo.png` is renamed to
`photo.png.png`.  This theorem evaluates the code at that failing
input. -/
theorem detectAndRename_renames_despite_correct_extension :
    DetectAndRenameImageFile [("photo.png", pngSig)] "photo.png" =
      { path := "photo.png.png", error := none,
        fs := [("photo.png.png", pngSig)] } := by decide

/-- C4 counterexample: a file whose leading bytes are only the four
magic bytes `89 50 4E 47` (not the full 8-byte PNG signature) is NOT
sniffed as PNG: `download.tmp` is not renamed to `download.tmp.png`,
contradicting the claim as stated; the call errors and leaves the file
system untouched. -/
theorem detectAndRename_pngMagic4_counterexample :
    (DetectAndRenameImageFile [("download.tmp", [0x89, 0x50, 0x4E, 0x47])]
        "download.tmp").path ≠ "download.tmp.png" ∧
      (DetectAndRenameImageFile [("download.tmp", [0x89, 0x50, 0x4E, 0x47])]
          "download.tmp") =
        { path := "download.tmp",
          error := some "not a recognized image type: application/octet-stream",
          fs := [("download.tmp", [0x89, 0x50, 0x4E, 0x47])] } := by decide

/-- C4 amended: for a file named `download.tmp` whose leading bytes are
the full 8-byte PNG signature `89 50 4E 47 0D 0A 1A 0A`, the sniffer
renames the file to `download.tmp.png` in the same directory and
returns that path; each detected image type maps to its fixed
extension, and a detected type containing the generic `image/` prefix
but matching none of the seven specific ones defaults to `.jpg`. -/
theorem detectAndRename_png_signature_renames :
    (∀ rest : List Nat,
      DetectAndRenameImageFile [("download.tmp", pngSig ++ rest)] "download.tmp" =
        { path := "download.tmp.png", error := none,
          fs := [("download.tmp.png", pngSig ++ rest)] }) ∧
    sniffExtension "image/jpeg" = some ".jpg" ∧
    sniffExtension "image/png" = some ".png" ∧
    sniffExtension "image/gif" = some ".gif" ∧
    sniffExtension "image/webp" = some ".webp" ∧
    sniffExtension "image/bmp" = some ".bmp" ∧
    sniffExtension "image/tiff" = some ".tiff" ∧
    sniffExtension "image/svg+xml" = some ".svg" ∧
    (∀ ct, strContains ct "image/" = true →
      strContains ct "image/jpeg" = false →
      strContains ct "image/png" = false →
      strContains ct "image/gif" = false →
      strContains ct "image/webp" = false →
      strContains ct "image/bmp" = false →
      strContains ct "image/tiff" = false →
      strContains ct "image/svg+xml" = false →
      sniffExtension ct = some ".jpg") := by
  refine ⟨?_, by decide, by decide, by decide, by decide, by decide, by decide, by decide, ?_⟩
  · intro rest
    have hbuf : detectBuffer (pngSig ++ rest) =
        pngSig ++ (rest ++ List.replicate 512 0).take 504 := by
      rw [detectBuffer, List.append_assoc, take_512_png]
    have hread : goRead512Err (pngSig ++ rest) = none := by
      simp [goRead512Err, pngSig]
    have hct : goDetectContentType (detectBuffer (pngSig ++ rest)) = "image/png" := by
      rw [hbuf, goDetect_png_prefix]
    have hext : sniffExtension "image/png" = some ".png" := by decide
    have hdir : pathDir "download.tmp" = "." := by decide
    have hbase : pathBase "download.tmp" = "download.tmp" := by decide
    have hjoin : pathJoin "." ("download.tmp" ++ ".png") = "download.tmp.png" := by decide
    have hne : ("download.tmp" : String) ≠ "download.tmp.png" := by decide
    simp only [DetectAndRenameImageFile, assocLookup, eq_self_iff_true, if_true, hread,
      detectAfterRead, hct, hext, hdir, hbase, hjoin]
    rw [if_neg hne]
    simp [fsRename, assocLookup, assocErase, assocSet, List.filter]
  · intro ct h0 h1 h2 h3 h4 h5 h6 h7
    simp [sniffExtension, h0, h1, h2, h3, h4, h5, h6, h7]

/-- C4 amended, witness: the default branch applied to the concrete
detected type `image/x-icon` yields `.jpg`, and the PNG scenario at
`rest = []`. -/
theorem detectAndRename_png_signature_renames_witness :
    DetectAndRenameImageFile [("download.tmp", pngSig)] "download.tmp" =
      { path := "download.tmp.png", error := none,
        fs := [("download.tmp.png", pngSig)] } ∧
    sniffExtension "image/x-icon" = some ".jpg" := by
  have h := detectAndRename_png_signature_renames
  refine ⟨?_, ?_⟩
  · have ha := h.1 []
    simpa using ha
  · exact h.2.2.2.2.2.2.2.2 "image/x-icon" (by decide) (by decide) (by decide) (by decide)
      (by decide) (by decide) (by decide) (by decide)

/-- Opening an existing file never yields a read error other than
`io.EOF`, so the handler always proceeds to classification. -/
theorem detectAndRename_eq_afterRead (fs : FileSys) (p : String) (c : List Nat)
    (hlook : assocLookup fs p = some c) :
    DetectAndRenameImageFile fs p = detectAfterRead fs p c := by
  simp only [DetectAndRenameImageFile, hlook]
  by_cases hc : c.isEmpty <;> simp [goRead512Err, hc]

/-- C5: for every file whose sniffed content type does not contain
`image/`, `DetectAndRenameImageFile` returns the original path
unchanged together with the not-an-image error, and performs no
rename or any other file-system mutation. -/
theorem detectAndRename_not_image (fs : FileSys) (p : String) (c : List Nat)
    (hlook : assocLookup fs p = some c)
    (hni : strContains (goDetectContentType (detectBuffer c)) "image/" = false) :
    DetectAndRenameImageFile fs p =
      { path := p,
        error := some ("not a recognized image type: " ++
          goDetectContentType (detectBuffer c)),
        fs := fs } := by
  have hj : ("image/" ++ "jpeg" : String) = "image/jpeg" := by decide
  have hp : ("image/" ++ "png" : String) = "image/png" := by decide
  have hg : ("image/" ++ "gif" : String) = "image/gif" := by decide
  have hw : ("image/" ++ "webp" : String) = "image/webp" := by decide
  have hb : ("image/" ++ "bmp" : String) = "image/bmp" := by decide
  have ht : ("image/" ++ "tiff" : String) = "image/tiff" := by decide
  have hs : ("image/" ++ "svg+xml" : String) = "image/svg+xml" := by decide
  have h1 := hj ▸ strContains_image_sub_false _ "jpeg" hni
  have h2 := hp ▸ strContains_image_sub_false _ "png" hni
  have h3 := hg ▸ strContains_image_sub_false _ "gif" hni
  have h4 := hw ▸ strContains_image_sub_false _ "webp" hni
  have h5 := hb ▸ strContains_image_sub_false _ "bmp" hni
  have h6 := ht ▸ strContains_image_sub_false _ "tiff" hni
  have h7 := hs ▸ strContains_image_sub_false _ "svg+xml" hni
  have hse : sniffExtension (goDetectContentType (detectBuffer c)) = none := by
    simp [sniffExtension, h1, h2, h3, h4, h5, h6, h7, hni]
  rw [detectAndRename_eq_afterRead fs p c hlook]
  simp only [detectAfterRead, hse]

/-- C5 witness: a 4-byte file of zero bytes sniffs as
`application/octet-stream` and is left untouched. -/
theorem detectAndRename_not_image_witness :
    DetectAndRenameImageFile [("data.bin", [0, 0, 0, 0])] "data.bin" =
      { path := "data.bin",
        error := some ("not a recognized image type: " ++
          goDetectContentType (detectBuffer [0, 0, 0, 0])),
        fs := [("data.bin", [0, 0, 0, 0])] } :=
  detectAndRename_not_image _ _ _ (by decide) (by decide)

/-- C8: for a readable file shorter than 512 bytes (including the
empty file, whose first read yields `io.EOF`), the handler does not
fail on the short read: it proceeds to classify the available bytes
(zero-padded, since the read count is ignored), and the only error it
can still report is the not-an-image error. -/
theorem detectAndRename_short_read_proceeds (fs : FileSys) (p : String) (c : List Nat)
    (hlook : assocLookup fs p = some c) (_hshort : c.length < 512) :
    DetectAndRenameImageFile fs p = detectAfterRead fs p c ∧
      ((DetectAndRenameImageFile fs p).error = none ∨
        (DetectAndRenameImageFile fs p).error =
          some ("not a recognized image type: " ++
            goDetectContentType (detectBuffer c))) := by
  have he := detectAndRename_eq_afterRead fs p c hlook
  refine ⟨he, ?_⟩
  rw [he]
  rcases hse : sniffExtension (goDetectContentType (detectBuffer c)) with _ | ext
  · right
    simp [detectAfterRead, hse]
  · left
    simp only [detectAfterRead, hse]
    split <;> rfl

/-- C8 witness: the empty file, where the initial read yields
end-of-stream. -/
theorem detectAndRename_short_read_proceeds_witness :
    DetectAndRenameImageFile [("empty.dat", ([] : List Nat))] "empty.dat" =
        detectAfterRead [("empty.dat", ([] : List Nat))] "empty.dat" [] ∧
      ((DetectAndRenameImageFile [("empty.dat", ([] : List Nat))] "empty.dat").error = none ∨
        (DetectAndRenameImageFile [("empty.dat", ([] : List Nat))] "empty.dat").error =
          some ("not a recognized image type: " ++
            goDetectContentType (detectBuffer []))) :=
  detectAndRename_short_read_proceeds _ _ _ (by decide) (by decide)

/-- C2 counterexample: with neither `imagePath` nor `imageUrl` set the
handler does abort with the descriptive hard error, but a façade call
HAS been attempted before that abort: driver resolution
(`setupXTDriver`, the façade's device-resolution step) runs first, so
the filtered façade-call trace is non-empty, contradicting the claim
as stated. -/
theorem pushImage_missing_args_facade_counterexample :
    (ToolPushImage.Implement
        { setupOk := true, downloadResult := none, renamed := none,
          clearOk := true, pushOk := true }
        { imagePath := none, imageUrl := none, cleanup := false,
          clearBefore := false }).1 =
        HandlerOutcome.hardError "either imagePath or imageUrl is required" ∧
      (ToolPushImage.Implement
          { setupOk := true, downloadResult := none, renamed := none,
            clearOk := true, pushOk := true }
          { imagePath := none, imageUrl := none, cleanup := false,
            clearBefore := false }).2.filter isFacadeCall ≠ [] := by decide

/-- C2 amended: when `push_image` is invoked with neither `imagePath`
nor `imageUrl` set (absent or empty), the handler aborts with the
descriptive hard error `either imagePath or imageUrl is required`,
and the only external call made before that abort is the
device-resolution setup call: no download, clear, push, or file
removal is attempted. -/
theorem pushImage_missing_args_aborts (env : PushEnv) (args : PushArgs)
    (hsetup : env.setupOk = true)
    (hmiss : (((!args.imagePath.isSome) || (args.imagePath.getD "" == "")) &&
        ((!args.imageUrl.isSome) || (args.imageUrl.getD "" == ""))) = true) :
    ToolPushImage.Implement env args =
      (HandlerOutcome.hardError "either imagePath or imageUrl is required",
        [Event.setupDriver]) := by
  have h1 : ¬ (env.setupOk = false) := by simp [hsetup]
  simp only [ToolPushImage.Implement]
  rw [if_neg h1, if_pos hmiss]

/-- C2 amended, witness: both arguments absent. -/
theorem pushImage_missing_args_aborts_witness :
    ToolPushImage.Implement
        { setupOk := true, downloadResult := none, renamed := none,
          clearOk := true, pushOk := true }
        { imagePath := none, imageUrl := none, cleanup := false,
          clearBefore := false } =
      (HandlerOutcome.hardError "either imagePath or imageUrl is required",
        [Event.setupDriver]) :=
  pushImage_missing_args_aborts _ _ (by decide) (by decide)

/-- C6: when `push_image` is invoked with a non-empty `imageUrl` (so a
file is downloaded) and `cleanup=true`, the downloaded file is removed
both when the façade push fails and when it succeeds; with
`cleanup=false` (or absent) no file removal happens in either case. -/
theorem pushImage_cleanup_semantics (env : PushEnv) (args : PushArgs) (u d : String)
    (hsetup : env.setupOk = true)
    (hurl : args.imageUrl = some u) (hne : u ≠ "")
    (hdl : env.downloadResult = some d) :
    (args.cleanup = true →
      Event.removeFile (env.renamed.getD d) ∈ (ToolPushImage.Implement env args).2) ∧
    (args.cleanup = false →
      ∀ q, Event.removeFile q ∉ (ToolPushImage.Implement env args).2) := by
  have hbe : (u == "") = false := by simp [hne]
  constructor
  · intro hcl
    simp only [ToolPushImage.Implement, hsetup, hurl, hdl, hbe]
    simp [pushImageCore, hne, hcl]
    rcases hp : env.pushOk <;> rcases hc : args.clearBefore <;> simp [hp, hc]
  · intro hcl
    intro q
    simp only [ToolPushImage.Implement, hsetup, hurl, hdl, hbe]
    simp [pushImageCore, hne, hcl]
    rcases hp : env.pushOk <;> rcases hc : args.clearBefore <;> simp [hp, hc]

/-- C6 witness: concrete URL push with `cleanup=true` (push failing
and push succeeding) and with `cleanup=false`. -/
theorem pushImage_cleanup_semantics_witness :
    Event.removeFile "dl.tmp" ∈
        (ToolPushImage.Implement
          { setupOk := true, downloadResult := some "dl.tmp", renamed := none,
            clearOk := true, pushOk := false }
          { imagePath := none, imageUrl := some "http://img", cleanup := true,
            clearBefore := false }).2 ∧
      Event.removeFile "dl.tmp" ∈
        (ToolPushImage.Implement
          { setupOk := true, downloadResult := some "dl.tmp", renamed := none,
            clearOk := true, pushOk := true }
          { imagePath := none, imageUrl := some "http://img", cleanup := true,
            clearBefore := false }).2 ∧
      ∀ q, Event.removeFile q ∉
        (ToolPushImage.Implement
          { setupOk := true, downloadResult := some "dl.tmp", renamed := none,
            clearOk := true, pushOk := true }
          { imagePath := none, imageUrl := some "http://img", cleanup := false,
            clearBefore := false }).2 := by
  refine ⟨?_, ?_, ?_⟩
  · exact (pushImage_cleanup_semantics _ _ "http://img" "dl.tmp" rfl rfl
      (by decide) rfl).1 rfl
  · exact (pushImage_cleanup_semantics _ _ "http://img" "dl.tmp" rfl rfl
      (by decide) rfl).1 rfl
  · exact (pushImage_cleanup_semantics _ _ "http://img" "dl.tmp" rfl rfl
      (by decide) rfl).2 rfl

/-- C7: a `clear_image` invocation on a successfully resolved device
whose `ClearImages` façade call succeeds returns a success envelope
whose payload carries `success=true` — and, the payload record having
`success` as its only field, nothing else. -/
theorem clearImage_success_envelope (env : ClearEnv)
    (hsetup : env.setupOk = true) (hclear : env.clearOk = true) :
    ToolClearImage.Implement env =
      HandlerOutcome.success "Successfully cleared images from device"
        { success := true } := by
  simp [ToolClearImage.Implement, hsetup, hclear]

/-- C7 witness. -/
theorem clearImage_success_envelope_witness :
    ToolClearImage.Implement { setupOk := true, clearOk := true } =
      HandlerOutcome.success "Successfully cleared images from device"
        { success := true } :=
  clearImage_success_envelope { setupOk := true, clearOk := true } rfl rfl

/-- C9: every `list_available_devices` invocation returns a success
envelope (never a failure envelope nor a hard error), and in its
payload the Android count is the length of the Android list, the iOS
count the length of the iOS list, and the total their sum — whatever
devices the enumeration drops. -/
theorem listDevices_always_success_counts (env : ListEnv) :
    ∃ msg d, ToolListAvailableDevices.Implement env = HandlerOutcome.success msg d ∧
      d.androidCount = d.androidDevices.length ∧
      d.iosCount = d.iosDevices.length ∧
      d.totalCount = d.androidCount + d.iosCount :=
  ⟨_, _, rfl, rfl, rfl, rfl⟩

/-- Behaviour of the common tail of the `push_image` handler with
respect to the pre-clear: the push is attempted regardless of the
pre-clear outcome, and the reported `Cleared` flag is true only when
`clearBefore` was requested and `ClearImages` succeeded. -/
theorem pushImageCore_cleared_spec (env : PushEnv) (args : PushArgs)
    (df : Bool) (ip iu : String) (uu : Bool) (ev : List Event) :
    ((∃ p, Event.pushImage p ∈ (pushImageCore env args df ip iu uu ev).2) ∧
      ∀ m dta, (pushImageCore env args df ip iu uu ev).1 =
          HandlerOutcome.success m dta →
        (dta.cleared = true ↔ (args.clearBefore = true ∧ env.clearOk = true))) := by
  constructor
  · refine ⟨ip, ?_⟩
    rcases hp : env.pushOk <;> rcases hc : args.clearBefore <;>
      rcases hcl : df && args.cleanup <;> simp [pushImageCore, hp, hc, hcl]
  · intro m dta hsucc
    rcases hp : env.pushOk <;> rcases hc : args.clearBefore <;>
      rcases hcl : df && args.cleanup <;>
      simp [pushImageCore, hp, hc, hcl] at hsucc <;> simp [← hsucc.2]

/-- Every invocation of the `push_image` handler that passes argument
validation (a usable image source, and a successful download whenever
a non-empty URL is given) reaches the common clear/push/cleanup tail. -/
theorem pushImage_reaches_core (env : PushEnv) (args : PushArgs)
    (hsetup : env.setupOk = true)
    (hdl : ∀ u, args.imageUrl = some u → u ≠ "" → env.downloadResult ≠ none)
    (hsrc : args.imagePath.getD "" ≠ "" ∨ args.imageUrl.getD "" ≠ "") :
    ∃ df ip iu uu ev, ToolPushImage.Implement env args = pushImageCore env args df ip iu uu ev := by
  rcases hu : args.imageUrl with _ | u
  · rcases hsrc with hs | hs
    · rcases hip : args.imagePath with _ | p
      · rw [hip] at hs
        simp at hs
      · rw [hip] at hs
        simp at hs
        refine ⟨false, p, "", false, [Event.setupDriver], ?_⟩
        simp [ToolPushImage.Implement, hsetup, hu, hip, hs]
    · rw [hu] at hs
      simp at hs
  · by_cases hue : u = ""
    · subst hue
      have hs : args.imagePath.getD "" ≠ "" := by
        rcases hsrc with hs | hs
        · exact hs
        · rw [hu] at hs
          simp at hs
      rcases hip : args.imagePath with _ | p
      · rw [hip] at hs
        simp at hs
      · rw [hip] at hs
        simp at hs
        refine ⟨false, p, "", false, [Event.setupDriver], ?_⟩
        simp [ToolPushImage.Implement, hsetup, hu, hip, hs]
    · rcases hdd : env.downloadResult with _ | dlp
      · exact absurd hdd (hdl u hu hue)
      · refine ⟨true, env.renamed.getD dlp, u, true,
          [Event.setupDriver, Event.download u], ?_⟩
        simp [ToolPushImage.Implement, hsetup, hu, hue, hdd]

/-- C10: when `push_image` is invoked with `clearBefore=true` and the
`ClearImages` façade call fails, the handler does not abort: it still
attempts the push, and any success payload reports `Cleared=false`;
moreover a success payload reports `Cleared=true` only when the
pre-clear was requested and actually succeeded. -/
theorem pushImage_clearBefore_failure_continues (env : PushEnv) (args : PushArgs)
    (hsetup : env.setupOk = true)
    (hdl : ∀ u, args.imageUrl = some u → u ≠ "" → env.downloadResult ≠ none)
    (hsrc : args.imagePath.getD "" ≠ "" ∨ args.imageUrl.getD "" ≠ "") :
    (args.clearBefore = true → env.clearOk = false →
      ((∃ p, Event.pushImage p ∈ (ToolPushImage.Implement env args).2) ∧
        ∀ m dta, (ToolPushImage.Implement env args).1 = HandlerOutcome.success m dta →
          dta.cleared = false)) ∧
    (∀ m dta, (ToolPushImage.Implement env args).1 = HandlerOutcome.success m dta →
      dta.cleared = true → args.clearBefore = true ∧ env.clearOk = true) := by
  obtain ⟨df, ip, iu, uu, ev, heq⟩ := pushImage_reaches_core env args hsetup hdl hsrc
  have h := pushImageCore_cleared_spec env args df ip iu uu ev
  constructor
  · intro _ hco
    rw [heq]
    refine ⟨h.1, ?_⟩
    intro m dta hs
    cases hcl : dta.cleared
    · rfl
    · exact absurd ((h.2 m dta hs).mp hcl).2 (by simp [hco])
  · intro m dta hs hcl
    rw [heq] at hs
    exact (h.2 m dta hs).mp hcl

/-- C10 witness: URL push with `clearBefore=true` and a failing
pre-clear. -/
theorem pushImage_clearBefore_failure_continues_witness :
    (∃ p, Event.pushImage p ∈
      (ToolPushImage.Implement
        { setupOk := true, downloadResult := some "dl.tmp", renamed := none,
          clearOk := false, pushOk := true }
        { imagePath := none, imageUrl := some "http://img", cleanup := false,
          clearBefore := true }).2) ∧
    ∀ m dta,
      (ToolPushImage.Implement
        { setupOk := true, downloadResult := some "dl.tmp", renamed := none,
          clearOk := false, pushOk := true }
        { imagePath := none, imageUrl := some "http://img", cleanup := false,
          clearBefore := true }).1 = HandlerOutcome.success m dta →
      dta.cleared = false := by
  have h := pushImage_clearBefore_failure_continues
    { setupOk := true, downloadResult := some "dl.tmp", renamed := none,
      clearOk := false, pushOk := true }
    { imagePath := none, imageUrl := some "http://img", cleanup := false,
      clearBefore := true }
    rfl (by intro u hu hne; simp) (Or.inr (by decide))
  exact h.1 rfl rfl

theorem assocLookup_applyStrField_other (m : List (String × ArgVal)) (k k2 : String)
    (v : Option ArgVal) (h : k2 ≠ k) :
    assocLookup (applyStrField m k v) k2 = assocLookup m k2 := by
  rcases v with _ | a
  · rfl
  · rcases a with s | b | _
    · by_cases hs : s = "" <;> simp [applyStrField, hs, assocLookup_set_other _ _ _ _ h]
    · rfl
    · rfl

theorem assocLookup_applyBoolField_other (m : List (String × ArgVal)) (k k2 : String)
    (v : Option ArgVal) (h : k2 ≠ k) :
    assocLookup (applyBoolField m k v) k2 = assocLookup m k2 := by
  rcases v with _ | a
  · rfl
  · rcases a with s | b | _
    · rfl
    · simp [applyBoolField, assocLookup_set_other _ _ _ _ h]
    · rfl

theorem assocLookup_applyStrField_self (m : List (String × ArgVal)) (k : String)
    (s : String) (h : s ≠ "") :
    assocLookup (applyStrField m k (some (ArgVal.aStr s))) k = some (ArgVal.aStr s) := by
  simp [applyStrField, h, assocLookup_set_self]

theorem assocLookup_applyBoolField_self (m : List (String × ArgVal)) (k : String)
    (b : Bool) :
    assocLookup (applyBoolField m k (some (ArgVal.aBool b))) k = some (ArgVal.aBool b) := by
  simp [applyBoolField, assocLookup_set_self]

theorem applyStrField_none (m : List (String × ArgVal)) (k : String) :
    applyStrField m k none = m := rfl

theorem applyBoolField_none (m : List (String × ArgVal)) (k : String) :
    applyBoolField m k none = m := rfl

/-- C3: in `ToolPushImage.ConvertActionToCallToolRequest`, for each of
the four fields a custom-override value beats a conflicting
nested-mapping value; a nested-mapping value (resp. a bare-scalar
`imageUrl`) is used when no custom override is present; and disjoint
fields from the different sources are merged into the same final
argument set (e.g. a nested `imagePath` together with a custom
`cleanup`). -/
theorem pushImage_convert_precedence (action : MobileAction) :
    (∀ u, assocLookup action.custom "imageUrl" = some (ArgVal.aStr u) → u ≠ "" →
      assocLookup (ToolPushImage.ConvertActionToCallToolRequest action).arguments
        "imageUrl" = some (ArgVal.aStr u)) ∧
    (∀ p, assocLookup action.custom "imagePath" = some (ArgVal.aStr p) → p ≠ "" →
      assocLookup (ToolPushImage.ConvertActionToCallToolRequest action).arguments
        "imagePath" = some (ArgVal.aStr p)) ∧
    (∀ b, assocLookup action.custom "cleanup" = some (ArgVal.aBool b) →
      assocLookup (ToolPushImage.ConvertActionToCallToolRequest action).arguments
        "cleanup" = some (ArgVal.aBool b)) ∧
    (∀ b, assocLookup action.custom "clearBefore" = some (ArgVal.aBool b) →
      assocLookup (ToolPushImage.ConvertActionToCallToolRequest action).arguments
        "clearBefore" = some (ArgVal.aBool b)) ∧
    (∀ m u, action.params = ParamsVal.pMap m →
      assocLookup m "imageUrl" = some (ArgVal.aStr u) → u ≠ "" →
      assocLookup action.custom "imageUrl" = none →
      assocLookup (ToolPushImage.ConvertActionToCallToolRequest action).arguments
        "imageUrl" = some (ArgVal.aStr u)) ∧
    (∀ u, action.params = ParamsVal.pStr u → u ≠ "" →
      assocLookup action.custom "imageUrl" = none →
      assocLookup (ToolPushImage.ConvertActionToCallToolRequest action).arguments
        "imageUrl" = some (ArgVal.aStr u)) ∧
    (∀ m p b, action.params = ParamsVal.pMap m →
      assocLookup m "imagePath" = some (ArgVal.aStr p) → p ≠ "" →
      assocLookup action.custom "imagePath" = none →
      assocLookup action.custom "cleanup" = some (ArgVal.aBool b) →
      assocLookup (ToolPushImage.ConvertActionToCallToolRequest action).arguments
          "imagePath" = some (ArgVal.aStr p) ∧
        assocLookup (ToolPushImage.ConvertActionToCallToolRequest action).arguments
          "cleanup" = some (ArgVal.aBool b)) := by
  have hUcb : ("imageUrl" : String) ≠ "clearBefore" := by decide
  have hUcl : ("imageUrl" : String) ≠ "cleanup" := by decide
  have hUp : ("imageUrl" : String) ≠ "imagePath" := by decide
  have hPcb : ("imagePath" : String) ≠ "clearBefore" := by decide
  have hPcl : ("imagePath" : String) ≠ "cleanup" := by decide
  have hPu : ("imagePath" : String) ≠ "imageUrl" := by decide
  have hClcb : ("cleanup" : String) ≠ "clearBefore" := by decide
  have hClp : ("cleanup" : String) ≠ "imagePath" := by decide
  have hClu : ("cleanup" : String) ≠ "imageUrl" := by decide
  refine ⟨?_, ?_, ?_, ?_, ?_, ?_, ?_⟩
  · intro u hcu hne
    simp only [ToolPushImage.ConvertActionToCallToolRequest]
    rw [assocLookup_applyBoolField_other _ _ _ _ hUcb,
      assocLookup_applyBoolField_other _ _ _ _ hUcl,
      assocLookup_applyStrField_other _ _ _ _ hUp,
      hcu, assocLookup_applyStrField_self _ _ _ hne]
  · intro p hcp hne
    simp only [ToolPushImage.ConvertActionToCallToolRequest]
    rw [assocLookup_applyBoolField_other _ _ _ _ hPcb,
      assocLookup_applyBoolField_other _ _ _ _ hPcl,
      hcp, assocLookup_applyStrField_self _ _ _ hne]
  · intro b hcb
    simp only [ToolPushImage.ConvertActionToCallToolRequest]
    rw [assocLookup_applyBoolField_other _ _ _ _ hClcb,
      hcb, assocLookup_applyBoolField_self]
  · intro b hcb
    simp only [ToolPushImage.ConvertActionToCallToolRequest]
    rw [hcb, assocLookup_applyBoolField_self]
  · intro m u hparams hmu hne hcu
    simp only [ToolPushImage.ConvertActionToCallToolRequest, hparams, paramsAsStr]
    rw [assocLookup_applyBoolField_other _ _ _ _ hUcb,
      assocLookup_applyBoolField_other _ _ _ _ hUcl,
      assocLookup_applyStrField_other _ _ _ _ hUp,
      hcu, applyStrField_none,
      assocLookup_applyBoolField_other _ _ _ _ hUcb,
      assocLookup_applyBoolField_other _ _ _ _ hUcl,
      assocLookup_applyStrField_other _ _ _ _ hUp,
      hmu, assocLookup_applyStrField_self _ _ _ hne]
  · intro u hparams hne hcu
    simp only [ToolPushImage.ConvertActionToCallToolRequest, hparams, paramsAsStr]
    rw [assocLookup_applyBoolField_other _ _ _ _ hUcb,
      assocLookup_applyBoolField_other _ _ _ _ hUcl,
      assocLookup_applyStrField_other _ _ _ _ hUp,
      hcu, applyStrField_none,
      assocLookup_applyStrField_self _ _ _ hne]
  · intro m p b hparams hmp hne hcp hccl
    constructor
    · simp only [ToolPushImage.ConvertActionToCallToolRequest, hparams, paramsAsStr]
      rw [assocLookup_applyBoolField_other _ _ _ _ hPcb,
        assocLookup_applyBoolField_other _ _ _ _ hPcl,
        hcp, applyStrField_none,
        assocLookup_applyStrField_other _ _ _ _ hPu,
        assocLookup_applyBoolField_other _ _ _ _ hPcb,
        assocLookup_applyBoolField_other _ _ _ _ hPcl,
        hmp, assocLookup_applyStrField_self _ _ _ hne]
    · simp only [ToolPushImage.ConvertActionToCallToolRequest, hparams, paramsAsStr]
      rw [assocLookup_applyBoolField_other _ _ _ _ hClcb,
        hccl, assocLookup_applyBoolField_self]

/-- C3 witness: custom `imageUrl` overrides the conflicting nested
one, while the disjoint nested `imagePath` and custom `cleanup` are
both merged into the final argument set. -/
theorem pushImage_convert_precedence_witness :
    assocLookup (ToolPushImage.ConvertActionToCallToolRequest
        { params := ParamsVal.pMap
            [("imageUrl", ArgVal.aStr "nested-url"), ("imagePath", ArgVal.aStr "nested-path")],
          custom := [("imageUrl", ArgVal.aStr "custom-url"), ("cleanup", ArgVal.aBool true)] }).arguments
      "imageUrl" = some (ArgVal.aStr "custom-url") ∧
    assocLookup (ToolPushImage.ConvertActionToCallToolRequest
        { params := ParamsVal.pMap
            [("imageUrl", ArgVal.aStr "nested-url"), ("imagePath", ArgVal.aStr "nested-path")],
          custom := [("imageUrl", ArgVal.aStr "custom-url"), ("cleanup", ArgVal.aBool true)] }).arguments
      "imagePath" = some (ArgVal.aStr "nested-path") ∧
    assocLookup (ToolPushImage.ConvertActionToCallToolRequest
        { params := ParamsVal.pMap
            [("imageUrl", ArgVal.aStr "nested-url"), ("imagePath", ArgVal.aStr "nested-path")],
          custom := [("imageUrl", ArgVal.aStr "custom-url"), ("cleanup", ArgVal.aBool true)] }).arguments
      "cleanup" = some (ArgVal.aBool true) := by
  have h := pushImage_convert_precedence
    { params := ParamsVal.pMap
        [("imageUrl", ArgVal.aStr "nested-url"), ("imagePath", ArgVal.aStr "nested-path")],
      custom := [("imageUrl", ArgVal.aStr "custom-url"), ("cleanup", ArgVal.aBool true)] }
  refine ⟨?_, ?_, ?_⟩
  · exact h.1 "custom-url" (by decide) (by decide)
  · exact (h.2.2.2.2.2.2 _ "nested-path" true rfl (by decide) (by decide)
      (by decide) (by decide)).1
  · exact (h.2.2.2.2.2.2 _ "nested-path" true rfl (by decide) (by decide)
      (by decide) (by decide)).2

end HttpRunner
